import Mathlib

/-!
# Verification of the segmentio/cli command engine

A shallow embedding, in Lean 4, of the command-line construction engine of
the `cli` Go package: the tokenizer/parser (`parse.go`), the command
invoker (`CommandFunc.Call` in `command.go`), the merge passes over option
values (environment fallback and defaults), the required-flag check,
positional binding, the command router (`CommandSet.Call`), and the
typo-suggestion helper (`similarEnough`).

Modelling conventions:
* Go maps whose only relevant operations are keyed lookup and per-key update
  are embedded as association lists (`List (String × _)`); iteration order of
  a Go map is unspecified, and the list order is one admissible schedule.
  Every property proved below about an iteration either holds for all
  schedules (the passes touch distinct keys) or is stated existentially.
* Go strings are embedded as `String`; the engine only compares bytes of
  ASCII flags and names, so byte indexing (`s[0]`) is embedded as character
  indexing.
* `reflect`-based struct decoding is embedded value-level: a field decoder is
  a function from the collected raw strings to a decode result; the decoded
  Go values are represented by the closed universe `GoValue`.
* Errors are embedded by `CliError`: the `*Usage` and `*Help` signal types of
  the package (with their `Cmd` annotation slot), and a `plain` constructor
  for every other Go `error` (such as `strconv` failures or the bare
  suggestion error built with `errors.New`).
-/

/-- `splitNameValue` from parse.go: split a token at the first `=`. -/
def splitNameValue (s : String) : String × String × Bool :=
  let cs := s.toList
  match cs.findIdx? (fun c => c = '=') with
  | none => (s, "", false)
  | some i => (String.mk (cs.take i), String.mk (cs.drop (i + 1)), true)

/-- `isOption` from parse.go: `len(s) > 1 && s[0] == '-'`. -/
def isOption (s : String) : Bool :=
  match s.toList with
  | c :: _ :: _ => c = '-'
  | _ => false

/-- `isCommandSeparator` from parse.go: the token is exactly `--`. -/
def isCommandSeparator (s : String) : Bool :=
  s = "--"

/-- `lookupEnv` from parse.go: scan the `NAME=VALUE` environment snapshot for
the first entry whose name part equals `name`. -/
def lookupEnv (name : String) : List String → Option String
  | [] => none
  | e :: rest =>
    let (k, v, _) := splitNameValue e
    if k = name then some v else lookupEnv name rest

/-- Association-list lookup, embedding a Go map read `m[k]`. -/
def lookup {α : Type} : List (String × α) → String → Option α
  | [], _ => none
  | (k', v) :: rest, k => if k' = k then some v else lookup rest k

/-- Embedding of `options[name] = append(options[name], value)` on the
parsed-option map: append one value to the list held at a key, adding the
key at the end when absent. -/
def appendOpt : List (String × List String) → String → String → List (String × List String)
  | [], k, v => [(k, [v])]
  | (k', vs) :: rest, k, v =>
    if k' = k then (k', vs ++ [v]) :: rest else (k', vs) :: appendOpt rest k v

/-- Embedding of `options[name] = []string{v}` on the parsed-option map:
replace the list held at a key, adding the key at the end when absent. -/
def insertOpt : List (String × List String) → String → List String → List (String × List String)
  | [], k, vs => [(k, vs)]
  | (k', vs') :: rest, k, vs =>
    if k' = k then (k', vs) :: rest else (k', vs') :: insertOpt rest k vs

/-- Go `%q` formatting of a string, as used by the engine's error messages.
The engine only quotes flag names and plain tokens, which contain no
characters that `%q` would escape, so plain double quotes suffice. -/
def goQuote (s : String) : String :=
  "\"" ++ s ++ "\""

/-- Go `%q` formatting of a string slice, e.g. `["a" "b"]`. -/
def goQuoteList (xs : List String) : String :=
  "[" ++ String.intercalate " " (xs.map goQuote) ++ "]"

/-- The `option` struct of parse.go (a record of whether the flag is
boolean). -/
structure Opt where
  boolean : Bool
deriving DecidableEq, Repr

/-- The `parser` struct of parse.go: the alias table and the
recognized-option table. -/
structure Parser where
  aliases : List (String × String)
  options : List (String × Opt)
deriving DecidableEq, Repr

/-- `makeParser` from parse.go: a parser knowing only `-h`/`--help`. -/
def makeParser : Parser :=
  ⟨[("-h", "--help")], [("--help", ⟨true⟩)]⟩

/-- Identity of a command node, for the `Cmd` annotation slot of the `Help`
and `Usage` signals. `named` embeds the `namedCommand` wrapper. -/
inductive Node where
  | cmdFunc (id : Nat)
  | cmdSet (id : Nat)
  | named (name : String) (inner : Node)
deriving DecidableEq, Repr

/-- The error universe of the engine: the `*Usage` signal (annotation slot
plus cause message), the `*Help` signal (annotation slot), and every other
Go error, carried as its message. -/
inductive CliError where
  | usage (cmd : Option Node) (err : String)
  | help (cmd : Option Node)
  | plain (msg : String)
deriving DecidableEq, Repr

/-- The result record of `parser.parseCommandLine`: the option→values map,
the positional values, and the trailing command after `--`. -/
structure ParsedArgs where
  options : List (String × List String)
  values : List String
  command : List String
deriving DecidableEq, Repr

/-- Alias resolution step of `parseCommandLine`: overwrite an alias with the
main option name. -/
def resolveAlias (p : Parser) (name : String) : String :=
  match lookup p.aliases name with
  | some a => a
  | none => name

/-- The per-token decision of the scanning loop of `parser.parseCommandLine`:
stop at the separator, take a positional value, record an option value
(attached with `=`, or the boolean default `"true"`), request the next token
as the value of a non-boolean option, or fail. -/
inductive TokenAction where
  | sep
  | positional
  | record (name value : String)
  | needsValue (name : String)
  | fail (e : CliError)
deriving DecidableEq, Repr

/-- The body of the scan of `parser.parseCommandLine` from parse.go for one
token: the separator test, the positional test, the split at the first `=`,
alias resolution, the recognized-option test, and the boolean
special-casing. -/
def classifyToken (p : Parser) (arg : String) : TokenAction :=
  if isCommandSeparator arg then .sep
  else if !isOption arg then .positional
  else
    let sv := splitNameValue arg
    let name := resolveAlias p sv.1
    match lookup p.options name with
    | none => .fail (.usage none ("unrecognized option: " ++ goQuote arg))
    | some o =>
      if o.boolean then
        if sv.2.2 then
          if sv.2.1 = "true" ∨ sv.2.1 = "false" then .record name sv.2.1
          else .fail (.usage none ("unexpected boolean value: " ++ goQuote sv.2.1))
        else .record name "true"
      else if sv.2.2 then .record name sv.2.1
      else .needsValue name

/-- The scanning loop of `parser.parseCommandLine` from parse.go, with the
accumulated option map and positional list threaded explicitly: everything
after the separator becomes the trailing command; a non-boolean option
without an attached value consumes the next token, which must exist and not
itself look like an option. -/
def parseLoop (p : Parser) :
    List String → List (String × List String) → List String → Except CliError ParsedArgs
  | [], opts, vals => .ok ⟨opts, vals, []⟩
  | arg :: rest, opts, vals =>
    match classifyToken p arg with
    | .sep => .ok ⟨opts, vals, rest⟩
    | .positional => parseLoop p rest opts (vals ++ [arg])
    | .record name v => parseLoop p rest (appendOpt opts name v) vals
    | .fail e => .error e
    | .needsValue name =>
      match rest with
      | [] => .error (.usage none ("missing option value: " ++ goQuote arg))
      | next :: rest' =>
        if isOption next then .error (.usage none ("missing option value: " ++ goQuote arg))
        else parseLoop p rest' (appendOpt opts name next) vals

/-- `parser.parseCommandLine` from parse.go. -/
def parseCommandLine (p : Parser) (args : List String) : Except CliError ParsedArgs :=
  parseLoop p args [] []

/-- `wantHelp` from command.go: the parsed `--help` option resolves true when
present with no values or with at least one value equal to `"true"`. -/
def wantHelp (options : List (String × List String)) : Bool :=
  match lookup options "--help" with
  | none => false
  | some values => values.isEmpty || values.any (fun v => v = "true")

/-- `parseHelp` from command.go: inspect only the first argument of a command
set's vector; when it is named `-h` or `--help` it is removed, and help is
requested unless it carries an explicit value other than `"true"`. -/
def parseHelp (args : List String) : Bool × List String :=
  match args with
  | [] => (false, [])
  | a :: rest =>
    let sv := splitNameValue a
    if sv.1 = "-h" ∨ sv.1 = "--help" then
      (if sv.2.2 then sv.2.1 = "true" else true, rest)
    else
      (false, args)

/-- Decoded Go values produced by the value binder (the closed universe the
claims need: integers, strings, booleans, and slices thereof). -/
inductive GoValue where
  | int (i : Int)
  | str (s : String)
  | bool (b : Bool)
  | list (vs : List GoValue)

/-- Digit value of a character, as used by Go's `strconv` integer parsing. -/
def digitVal (c : Char) : Option Nat :=
  if '0' ≤ c ∧ c ≤ '9' then some (c.toNat - '0'.toNat)
  else if 'a' ≤ c ∧ c ≤ 'z' then some (c.toNat - 'a'.toNat + 10)
  else if 'A' ≤ c ∧ c ≤ 'Z' then some (c.toNat - 'A'.toNat + 10)
  else none

/-- Accumulating digit parse at a given base; `none` on an invalid digit. -/
def parseDigitsAux (base : Nat) : List Char → Nat → Option Nat
  | [], acc => some acc
  | c :: rest, acc =>
    match digitVal c with
    | some d => if d < base then parseDigitsAux base rest (acc * base + d) else none
    | none => none

/-- Digit parse at a given base; `none` when empty or on an invalid digit. -/
def parseDigits (base : Nat) : List Char → Option Nat
  | [] => none
  | cs => parseDigitsAux base cs 0

/-- Base detection of Go's `strconv.ParseInt` with base argument 0: `0x`/`0X`
is hexadecimal, `0o`/`0O` octal, `0b`/`0B` binary, a remaining leading zero
legacy octal, anything else decimal. -/
def splitBasePrefix : List Char → Nat × List Char
  | '0' :: x :: rest =>
    if x = 'x' ∨ x = 'X' then (16, rest)
    else if x = 'o' ∨ x = 'O' then (8, rest)
    else if x = 'b' ∨ x = 'B' then (2, rest)
    else (8, x :: rest)
  | cs => (10, cs)

/-- Magnitude part of Go's base-0 integer parse (digit-group underscores of
the Go syntax are not modelled; no engine input in this development uses
them, and they decode as a syntax error here). -/
def goParseMag (cs : List Char) : Option Nat :=
  let (base, digits) := splitBasePrefix cs
  parseDigits base digits

/-- Sign handling of Go's `strconv.ParseInt`. -/
def goParseIntCore (s : String) : Option Int :=
  match s.toList with
  | [] => none
  | '+' :: rest => (goParseMag rest).map Int.ofNat
  | '-' :: rest => (goParseMag rest).map (fun n => -(n : Int))
  | cs => (goParseMag cs).map Int.ofNat

/-- Go's `strconv.ParseInt(s, 0, bits)`, with its error messages. -/
def goParseInt (bits : Nat) (s : String) : Except String Int :=
  match goParseIntCore s with
  | none => .error ("strconv.ParseInt: parsing " ++ goQuote s ++ ": invalid syntax")
  | some x =>
    if x < -(2 ^ (bits - 1) : Int) ∨ (2 ^ (bits - 1) : Int) ≤ x then
      .error ("strconv.ParseInt: parsing " ++ goQuote s ++ ": value out of range")
    else .ok x

/-- Go's `strconv.ParseBool`, used by `decodeBool`. -/
def goParseBool (s : String) : Except String Bool :=
  if s = "1" ∨ s = "t" ∨ s = "T" ∨ s = "TRUE" ∨ s = "true" ∨ s = "True" then .ok true
  else if s = "0" ∨ s = "f" ∨ s = "F" ∨ s = "FALSE" ∨ s = "false" ∨ s = "False" then .ok false
  else .error ("strconv.ParseBool: parsing " ++ goQuote s ++ ": invalid syntax")

/-- The value-level part of `decodeInt` (the engine decodes `int` at the
64-bit word size of `uintSize`). -/
def decodeIntG (s : String) : Except String GoValue :=
  (goParseInt 64 s).map GoValue.int

/-- The value-level part of `decodeString`. -/
def decodeStringG (s : String) : Except String GoValue :=
  .ok (.str s)

/-- The value-level part of `decodeBool`. -/
def decodeBoolG (s : String) : Except String GoValue :=
  (goParseBool s).map GoValue.bool

/-- A decode failure: a `*Usage` produced by `assertArgumentCount`, or any
other error (carried as its message), mirroring the two cases
`structDecoder.decode` distinguishes. -/
inductive DecErr where
  | usage (msg : String)
  | plain (msg : String)
deriving DecidableEq, Repr

/-- `assertArgumentCount` from the struct-decoder file, at the point where it
is known that `got ≠ expected`. -/
def argCountErr (got expected : Nat) : DecErr :=
  if got < expected then
    .usage ("not enough arguments, expected " ++ toString expected ++ " but got " ++ toString got)
  else
    .usage ("too many arguments, expected " ++ toString expected ++ " but got " ++ toString got)

/-- A scalar field decoder: exactly one collected value is required
(`assertArgumentCount`), then the per-type decode runs on it. -/
def decodeScalar (d : String → Except String GoValue) : List String → Except DecErr GoValue
  | [x] =>
    match d x with
    | .ok v => .ok v
    | .error m => .error (.plain m)
  | a => .error (argCountErr a.length 1)

/-- `makeSliceDecoder`'s loop: decode each collected value with the element
decoder, appending in order, stopping at the first failure. -/
def decodeSliceVals (d : String → Except String GoValue) : List String → Except String (List GoValue)
  | [] => .ok []
  | v :: rest =>
    match d v with
    | .error m => .error m
    | .ok x =>
      match decodeSliceVals d rest with
      | .error m => .error m
      | .ok xs => .ok (x :: xs)

/-- A slice field decoder built from an element decoder. -/
def decodeSlice (d : String → Except String GoValue) (a : List String) : Except DecErr GoValue :=
  match decodeSliceVals d a with
  | .ok xs => .ok (.list xs)
  | .error m => .error (.plain m)

/-- `structFieldDecoder` from the struct-decoder file, restricted to the
fields `CommandFunc.Call` reads (`flags`, `help`, `argtyp` and `hidden` feed
only the help renderer, which is outside this development). -/
structure FieldInfo where
  envvars : List String
  defval : String
  boolean : Bool
  slice : Bool
  decode : List String → Except DecErr GoValue

/-- The synthesized `--help` field installed by `makeStructDecoder`:
no env names, empty default, boolean, decoded by `decodeBool`. -/
def helpField : FieldInfo :=
  ⟨[], "", true, false, decodeScalar decodeBoolG⟩

/-- `structDecoder.decode`: iterate the parsed option map, decoding each
value list into its field; a `*Usage` failure keeps its kind with the
message enriched by the option name, any other failure is wrapped into a
`*Usage` the same way. A name outside the schema is unreachable because the
parser only records names of its option table. -/
def structDecode (fields : List (String × FieldInfo)) :
    List (String × List String) → Except CliError Unit
  | [] => .ok ()
  | (name, values) :: rest =>
    let dec := match lookup fields name with
      | some f => f.decode
      | none => fun _ => .ok (GoValue.list [])
    match dec values with
    | .ok _ => structDecode fields rest
    | .error (.usage m) => .error (.usage none ("decoding " ++ goQuote name ++ ": " ++ m))
    | .error (.plain m) => .error (.usage none ("decoding " ++ goQuote name ++ ": " ++ m))

/-- Scan the field's candidate environment names in declared order, taking
the first one present in the snapshot (the inner loop of the env merge). -/
def firstEnvMatch : List String → List String → Option String
  | [], _ => none
  | e :: rest, env =>
    match lookupEnv e env with
    | some v => some v
    | none => firstEnvMatch rest env

/-- One iteration of the env-merge loop of `CommandFunc.Call`: skip fields
excluded by `IgnoreEnvOptionsMap`, fields already given on the command line,
and fields with no candidate names; otherwise install the first matching
environment value. -/
def envMergeStep (ignore env : List String)
    (opts : List (String × List String)) (nf : String × FieldInfo) :
    List (String × List String) :=
  if ignore.contains nf.1 then opts
  else if (lookup opts nf.1).isSome then opts
  else if nf.2.envvars.isEmpty then opts
  else
    match firstEnvMatch nf.2.envvars env with
    | some v => insertOpt opts nf.1 [v]
    | none => opts

/-- The env-merge loop of `CommandFunc.Call` over all schema fields. -/
def envMerge (fields : List (String × FieldInfo)) (ignore : List String)
    (opts : List (String × List String)) (env : List String) :
    List (String × List String) :=
  fields.foldl (envMergeStep ignore env) opts

/-- One iteration of the default-merge loop of `CommandFunc.Call`: a
still-unset field with a non-empty, non-sentinel default receives it. -/
def defaultMergeStep (opts : List (String × List String)) (nf : String × FieldInfo) :
    List (String × List String) :=
  if (lookup opts nf.1).isNone ∧ nf.2.defval ≠ "" ∧ nf.2.defval ≠ "-" then
    insertOpt opts nf.1 [nf.2.defval]
  else opts

/-- The default-merge loop of `CommandFunc.Call` over all schema fields. -/
def defaultMerge (fields : List (String × FieldInfo))
    (opts : List (String × List String)) : List (String × List String) :=
  fields.foldl defaultMergeStep opts

/-- The required-flag predicate of `CommandFunc.Call`: still unset, empty
default, neither boolean nor slice. -/
def isMissingRequired (opts : List (String × List String)) (nf : String × FieldInfo) : Bool :=
  (lookup opts nf.1).isNone && (nf.2.defval == "") && !nf.2.boolean && !nf.2.slice

/-- The required-check loop of `CommandFunc.Call`: the canonical name of a
field violating the required-flag condition, if any (the list order stands
in for one Go map iteration order; which violation is reported is
schedule-dependent, that one is reported is not). -/
def findMissingRequired (fields : List (String × FieldInfo))
    (opts : List (String × List String)) : Option String :=
  (fields.find? (isMissingRequired opts)).map Prod.fst

/-- A configured positional parameter of the callable: a scalar decoder, or
the final slice parameter with its element decoder. -/
inductive PosDecoder where
  | scalar (d : String → Except String GoValue)
  | sliceOf (d : String → Except String GoValue)

/-- The positional-binding loop of `CommandFunc.Call`: scalars consume one
value each in command-line order (an absent value becomes the empty string,
whose decode failure is returned as the bare decoder error); a slice
parameter absorbs every remaining value and clears the leftover list. -/
def bindPositionals : List PosDecoder → List String → Except CliError (List GoValue × List String)
  | [], values => .ok ([], values)
  | .sliceOf d :: _, values =>
    match decodeSliceVals d values with
    | .error m => .error (.plain m)
    | .ok xs => .ok ([.list xs], [])
  | .scalar d :: rest, values =>
    match d (values.headD "") with
    | .error m => .error (.plain m)
    | .ok x =>
      match bindPositionals rest values.tail with
      | .error e => .error e
      | .ok (xs, leftover) => .ok (x :: xs, leftover)

/-- The post-invocation annotation switch of `CommandFunc.Call` (and the
annotation applied to struct-decode failures there): a surfacing `*Help` or
`*Usage` has its `Cmd` slot set to the current command, unconditionally. -/
def annotateLeaf (n : Node) : CliError → CliError
  | .help _ => .help (some n)
  | .usage _ e => .usage (some n) e
  | .plain m => .plain m

/-- A configured `CommandFunc` (the state after `configure()`): parser and
field schema derived from the options record, positional decoders, the
variadic flag, the env-exclusion set, and the callable itself, embedded as a
function from bound positional values and the trailing command to the
mapped `(code, error)` result of the invocation. -/
structure CmdFunc where
  id : Nat
  parser : Parser
  options : List (String × FieldInfo)
  values : List PosDecoder
  variadic : Bool
  ignoreEnvOptions : List String
  invoke : List GoValue → List String → Int × Option CliError

/-- `CommandFunc.Call` from command.go: parse, help interception, env merge,
default merge, required check, options-record decode, positional binding,
leftover check, variadic checks, invocation, annotation. -/
def CmdFunc.call (cmd : CmdFunc) (args env : List String) : Int × Option CliError :=
  match parseCommandLine cmd.parser args with
  | .error e => (1, some e)
  | .ok pa =>
    if wantHelp pa.options then
      (0, some (.help (some (.cmdFunc cmd.id))))
    else
      let opts₁ := envMerge cmd.options cmd.ignoreEnvOptions pa.options env
      let opts₂ := defaultMerge cmd.options opts₁
      match findMissingRequired cmd.options opts₂ with
      | some name =>
        (1, some (.usage (some (.cmdFunc cmd.id)) ("missing required flag: " ++ goQuote name)))
      | none =>
        match structDecode cmd.options opts₂ with
        | .error e => (1, some (annotateLeaf (.cmdFunc cmd.id) e))
        | .ok _ =>
          match bindPositionals cmd.values pa.values with
          | .error e => (1, some e)
          | .ok (params, leftover) =>
            if leftover ≠ [] then
              (1, some (.usage (some (.cmdFunc cmd.id))
                ("too many positional arguments: " ++ goQuoteList leftover)))
            else if cmd.variadic ∧ pa.command = [] then
              (1, some (.usage (some (.cmdFunc cmd.id))
                ("missing command after \"--\" separator")))
            else if ¬cmd.variadic ∧ pa.command ≠ [] then
              (1, some (.usage (some (.cmdFunc cmd.id))
                ("unsupported command after \"--\" separator")))
            else
              let r := cmd.invoke params pa.command
              (r.1, r.2.map (annotateLeaf (.cmdFunc cmd.id)))

/-- Unit-cost edit distance between two character lists (deletion, insertion,
substitution), with an explicit recursion budget so that the definition is
structurally recursive (and so kernel-computable). Each recursive call
shortens the combined length by at least one while spending one unit of
fuel, and the empty-list cases need no fuel, so any budget of at least the
combined length of the two lists yields the true distance; the zero-fuel
fallback is unreachable from such a budget. -/
def levDist : Nat → List Char → List Char → Nat
  | _, [], ys => ys.length
  | _, xs, [] => xs.length
  | fuel + 1, x :: xs, y :: ys =>
    min ((if x = y then 0 else 1) + levDist fuel xs ys)
        (1 + min (levDist fuel (x :: xs) ys) (levDist fuel xs (y :: ys)))
  | 0, _, _ => 0

/-- Modelled from the spec: the router calls a `levenshtein` helper whose
definition is not among the provided sources (only its callers and its test
table are); the spec describes it as the edit distance between the unmatched
name and a registered key. The unit-cost Levenshtein distance used here
reproduces the whole in-repo test table for `similarEnough`. -/
def levenshteinDist (a b : String) : Nat :=
  levDist (a.length + b.length) a.toList b.toList

/-- `similarEnough` from command.go. The Go source compares
`float64(levenshtein)/float64(len(want)) <= 0.3`; for the machine floats
involved this agrees with the exact rational comparison
`10 * levenshtein ≤ 3 * len(want)` used here (the nearest-double roundings
of the quotient and of the literal cannot cross between two rationals with
these small denominators). -/
def similarEnough (input want : String) (lvn : Nat) : Bool :=
  if input.length ≤ 1 ∨ want.length ≤ 1 then false
  else if input.length ≤ 3 ∨ want.length ≤ 3 then lvn ≤ 1
  else 10 * lvn ≤ 3 * want.length

/-- The closest-key loop of `CommandSet.Call`: fold over the registered keys
keeping the first key of strictly minimal edit distance, starting from the
sentinel `("", 1000)` (the list order stands in for one Go map iteration
order; with distinct distances the result is schedule-independent). -/
def closestCmd (a : String) (keys : List String) : String × Nat :=
  keys.foldl
    (fun best k => if levenshteinDist a k < best.2 then (k, levenshteinDist a k) else best)
    ("", 1000)

/-- A child node of a command set: its node identity and its `Call` method,
embedded as a function of the remaining argument vector and the
environment. -/
structure Child where
  node : Node
  call : List String → List String → Int × Option CliError

/-- The annotation switch of `namedCommand.Call`: an unannotated surfacing
signal receives the named wrapper itself; an already annotated one has its
annotation wrapped in a new name-carrying decorator. -/
def annotateNamed (name : String) (inner : Node) : CliError → CliError
  | .help none => .help (some (.named name inner))
  | .help (some c) => .help (some (.named name c))
  | .usage none e => .usage (some (.named name inner)) e
  | .usage (some c) e => .usage (some (.named name c)) e
  | .plain m => .plain m

/-- `namedCommand.Call` from command.go: delegate to the wrapped node, then
annotate any surfacing signal. -/
def namedCall (name : String) (c : Child) (args env : List String) : Int × Option CliError :=
  let r := c.call args env
  (r.1, r.2.map (annotateNamed name c.node))

/-- The command-name scan of `CommandSet.Call`: the first token that is
neither option-looking nor the `--` separator is the name, removed in place;
a separator reached first, or an exhausted vector, leaves the empty name and
the vector untouched. -/
def scanName : List String → String × List String
  | [] => ("", [])
  | arg :: rest =>
    if isCommandSeparator arg then ("", arg :: rest)
    else if isOption arg then
      let (a, rest') := scanName rest
      (a, arg :: rest')
    else (arg, rest)

/-- A `CommandSet`: its node identity and the registered name→child map.
(The child-configuration loop at the top of `CommandSet.Call` is a no-op
here: children are embedded already configured.) -/
structure CmdSet where
  id : Nat
  cmds : List (String × Child)

/-- The routing part of `CommandSet.Call`, after the set-level help
interception: scan for the name, reject a missing name, dispatch a matched
name through the named wrapper, and otherwise either suggest the closest
registered key (as a bare error, deliberately not a `*Usage`) or fail with
the unknown-command usage error. -/
def CmdSet.dispatch (s : CmdSet) (args env : List String) : Int × Option CliError :=
  let r := scanName args
  if r.1 = "" then (1, some (.usage (some (.cmdSet s.id)) "missing command"))
  else
    match lookup s.cmds r.1 with
    | some c => namedCall r.1 c r.2 env
    | none =>
      let best := closestCmd r.1 (s.cmds.map Prod.fst)
      let msg := "unknown command: " ++ goQuote r.1
      if similarEnough r.1 best.1 best.2 then
        (1, some (.plain (msg ++ ". Did you mean " ++ goQuote best.1
          ++ "? Use --help to see all commands")))
      else (1, some (.usage (some (.cmdSet s.id)) msg))

/-- `CommandSet.Call` from command.go: the set-level help special case on
the leading token, then routing. -/
def CmdSet.call (s : CmdSet) (args env : List String) : Int × Option CliError :=
  let r := parseHelp args
  if r.1 then (0, some (.help (some (.cmdSet s.id)))) else s.dispatch r.2 env

/-- A string-typed required field (empty default, not boolean, not slice)
with one candidate environment name, as the schema deriver produces for a
string field with flags `-n,--name` and env tag `NAME`. -/
def nameField : FieldInfo :=
  ⟨["NAME"], "", false, false, decodeScalar decodeStringG⟩

/-- A configured leaf command whose options record has the single required
field `--name` (alias `-n`). -/
def cmdReq : CmdFunc :=
  ⟨1, ⟨[("-h", "--help"), ("-n", "--name")], [("--help", ⟨true⟩), ("--name", ⟨false⟩)]⟩,
   [("--help", helpField), ("--name", nameField)], [], false, [], fun _ _ => (0, none)⟩

/-- A configured leaf command with an empty options record and two `int`
positional parameters, as for `func(config struct{}, x, y int)`. -/
def cmdPos : CmdFunc :=
  ⟨2, makeParser, [("--help", helpField)],
   [.scalar decodeIntG, .scalar decodeIntG], false, [], fun _ _ => (0, none)⟩

/-- A configured variadic leaf command with an empty options record, as for
`func(config struct{}, sub ...string)`. -/
def cmdVar : CmdFunc :=
  ⟨3, makeParser, [("--help", helpField)], [], true, [], fun _ _ => (0, none)⟩

theorem lookup_insertOpt_eq (m : List (String × List String)) (k : String) (vs : List String) :
    lookup (insertOpt m k vs) k = some vs := by
  induction m with
  | nil => simp [insertOpt, lookup]
  | cons hd tl ih =>
    obtain ⟨k', vs'⟩ := hd
    by_cases h : k' = k
    · simp [insertOpt, h, lookup]
    · simp [insertOpt, h, lookup, ih]

theorem lookup_insertOpt_ne (m : List (String × List String)) (k' k : String) (vs : List String)
    (h : k' ≠ k) : lookup (insertOpt m k' vs) k = lookup m k := by
  induction m with
  | nil => simp [insertOpt, lookup, h]
  | cons hd tl ih =>
    obtain ⟨k₀, vs₀⟩ := hd
    by_cases h₀ : k₀ = k'
    · subst h₀; simp [insertOpt, lookup, h]
    · simp [insertOpt, h₀, lookup, ih]

theorem lookup_envMergeStep_ne (ig env : List String) (opts : List (String × List String))
    (nf : String × FieldInfo) (name : String) (h : nf.1 ≠ name) :
    lookup (envMergeStep ig env opts nf) name = lookup opts name := by
  unfold envMergeStep
  split
  · rfl
  · split
    · rfl
    · split
      · rfl
      · split
        · exact lookup_insertOpt_ne _ _ _ _ h
        · rfl

theorem lookup_envMerge_not_mem (fields : List (String × FieldInfo)) (ig env : List String)
    (opts : List (String × List String)) (name : String)
    (h : name ∉ fields.map Prod.fst) :
    lookup (envMerge fields ig opts env) name = lookup opts name := by
  induction fields generalizing opts with
  | nil => rfl
  | cons nf tl ih =>
    simp only [List.map_cons, List.mem_cons] at h
    push_neg at h
    have step : envMerge (nf :: tl) ig opts env = envMerge tl ig (envMergeStep ig env opts nf) env := rfl
    rw [step, ih _ h.2, lookup_envMergeStep_ne _ _ _ _ _ (fun he => h.1 he.symm)]

theorem lookup_defaultMergeStep_ne (opts : List (String × List String))
    (nf : String × FieldInfo) (name : String) (h : nf.1 ≠ name) :
    lookup (defaultMergeStep opts nf) name = lookup opts name := by
  unfold defaultMergeStep
  split
  · exact lookup_insertOpt_ne _ _ _ _ h
  · rfl

theorem lookup_defaultMerge_not_mem (fields : List (String × FieldInfo))
    (opts : List (String × List String)) (name : String)
    (h : name ∉ fields.map Prod.fst) :
    lookup (defaultMerge fields opts) name = lookup opts name := by
  induction fields generalizing opts with
  | nil => rfl
  | cons nf tl ih =>
    simp only [List.map_cons, List.mem_cons] at h
    push_neg at h
    have step : defaultMerge (nf :: tl) opts = defaultMerge tl (defaultMergeStep opts nf) := rfl
    rw [step, ih _ h.2, lookup_defaultMergeStep_ne _ _ _ (fun he => h.1 he.symm)]

theorem lookup_envMerge_mem (fields : List (String × FieldInfo)) (ig env : List String)
    (opts : List (String × List String)) (name : String) (f : FieldInfo)
    (hnodup : (fields.map Prod.fst).Nodup) (hmem : (name, f) ∈ fields) :
    lookup (envMerge fields ig opts env) name =
      if ig.contains name then lookup opts name
      else
        match lookup opts name with
        | some vs => some vs
        | none => (firstEnvMatch f.envvars env).map (fun v => [v]) := by
  induction fields generalizing opts with
  | nil => cases hmem
  | cons nf tl ih =>
    simp only [List.map_cons, List.nodup_cons] at hnodup
    have step : envMerge (nf :: tl) ig opts env = envMerge tl ig (envMergeStep ig env opts nf) env := rfl
    rcases List.mem_cons.mp hmem with heq | htl
    · -- the field at the head of the iteration
      have hf : nf = (name, f) := heq.symm
      subst hf
      have hnot : name ∉ tl.map Prod.fst := hnodup.1
      rw [step, lookup_envMerge_not_mem _ _ _ _ _ hnot]
      unfold envMergeStep
      cases hig : ig.contains name with
      | true => simp [hig]
      | false =>
        simp only [hig]
        cases hcli : lookup opts name with
        | some vs => simp [hcli]
        | none =>
          simp only [hcli]
          cases hfe : firstEnvMatch f.envvars env with
          | some v =>
            have hemp : f.envvars.isEmpty = false := by
              cases hv : f.envvars with
              | nil => rw [hv] at hfe; simp [firstEnvMatch] at hfe
              | cons a b => simp
            simp [hemp, hfe, lookup_insertOpt_eq]
          | none =>
            cases hemp : f.envvars.isEmpty with
            | true => simp [hemp, hcli, hfe]
            | false => simp [hemp, hfe, hcli]
    · have hne : nf.1 ≠ name := by
        intro he
        exact hnodup.1 (he ▸ (List.mem_map.mpr ⟨(name, f), htl, rfl⟩))
      rw [step, ih _ hnodup.2 htl, lookup_envMergeStep_ne _ _ _ _ _ hne]

theorem lookup_defaultMerge_mem (fields : List (String × FieldInfo))
    (opts : List (String × List String)) (name : String) (f : FieldInfo)
    (hnodup : (fields.map Prod.fst).Nodup) (hmem : (name, f) ∈ fields) :
    lookup (defaultMerge fields opts) name =
      match lookup opts name with
      | some vs => some vs
      | none => if f.defval ≠ "" ∧ f.defval ≠ "-" then some [f.defval] else none := by
  induction fields generalizing opts with
  | nil => cases hmem
  | cons nf tl ih =>
    simp only [List.map_cons, List.nodup_cons] at hnodup
    have step : defaultMerge (nf :: tl) opts = defaultMerge tl (defaultMergeStep opts nf) := rfl
    rcases List.mem_cons.mp hmem with heq | htl
    · have hf : nf = (name, f) := heq.symm
      subst hf
      have hnot : name ∉ tl.map Prod.fst := hnodup.1
      rw [step, lookup_defaultMerge_not_mem _ _ _ hnot]
      unfold defaultMergeStep
      cases hcli : lookup opts name with
      | some vs => simp [hcli]
      | none =>
        by_cases hdef : f.defval ≠ "" ∧ f.defval ≠ "-"
        · simp [hcli, hdef, lookup_insertOpt_eq]
        · simp [hcli, hdef]
    · have hne : nf.1 ≠ name := by
        intro he
        exact hnodup.1 (he ▸ (List.mem_map.mpr ⟨(name, f), htl, rfl⟩))
      rw [step, ih _ hnodup.2 htl, lookup_defaultMergeStep_ne _ _ _ hne]

theorem lookup_defaultMerge_of_set (fields : List (String × FieldInfo))
    (opts : List (String × List String)) (name : String) (vs : List String)
    (h : lookup opts name = some vs) :
    lookup (defaultMerge fields opts) name = some vs := by
  induction fields generalizing opts with
  | nil => exact h
  | cons nf tl ih =>
    have step : defaultMerge (nf :: tl) opts = defaultMerge tl (defaultMergeStep opts nf) := rfl
    rw [step]
    apply ih
    by_cases hne : nf.1 = name
    · subst hne
      unfold defaultMergeStep
      split
      · rename_i hcond
        rw [h] at hcond
        simp at hcond
      · exact h
    · rw [lookup_defaultMergeStep_ne _ _ _ hne]; exact h

/-- Whether a surfacing error is the `*Usage` signal. -/
def isUsageSignal : Option CliError → Bool
  | some (.usage _ _) => true
  | _ => false

/-- C1: whenever the tokenizer parses the vector successfully and the help
option resolves to true, `CommandFunc.Call` returns `(0, Help)` annotated
with the command itself, for every environment and regardless of the
field schema — i.e. without the environment merge, default merge,
required-flag check or binding influencing the outcome, even when required
options are absent from the vector. -/
theorem C1_help_short_circuits (cmd : CmdFunc) (args env : List String) (pa : ParsedArgs)
    (hparse : parseCommandLine cmd.parser args = .ok pa)
    (hhelp : wantHelp pa.options = true) :
    cmd.call args env = (0, some (.help (some (.cmdFunc cmd.id)))) := by
  unfold CmdFunc.call
  rw [hparse]
  simp [hhelp]

/-- Witness for C1: a command with the required flag `--name` left unset is
still answered with `(0, Help)` when called with `["-h"]`. -/
theorem C1_help_short_circuits_witness :
    cmdReq.call ["-h"] [] = (0, some (.help (some (.cmdFunc 1)))) :=
  C1_help_short_circuits cmdReq ["-h"] [] ⟨[("--help", ["true"])], [], []⟩ rfl rfl

/-- A parser whose schema has the boolean field `--flag` with alias `-f`. -/
def flagParser : Parser :=
  ⟨[("-h", "--help"), ("-f", "--flag")], [("--help", ⟨true⟩), ("--flag", ⟨true⟩)]⟩

/-- C8: a boolean option token with no `=value` is recorded as `"true"`; with
an `=value` the value must be exactly `"true"` or `"false"` and is recorded
as given, and any other value is a `*Usage` failure; in particular `-f`,
`--flag`, `-f=true`, `--flag=true` record true and `-f=false`, `--flag=false`
record false (all under the canonical name `--flag`), and `decodeBool` maps
the recorded strings to the boolean values. -/
theorem C8_boolean_options :
    (∀ (p : Parser) (arg nm v : String),
      isCommandSeparator arg = false → isOption arg = true →
      splitNameValue arg = (nm, v, false) →
      lookup p.options (resolveAlias p nm) = some ⟨true⟩ →
      parseCommandLine p [arg] = .ok ⟨[(resolveAlias p nm, ["true"])], [], []⟩) ∧
    (∀ (p : Parser) (arg nm v : String),
      isCommandSeparator arg = false → isOption arg = true →
      splitNameValue arg = (nm, v, true) →
      lookup p.options (resolveAlias p nm) = some ⟨true⟩ →
      (v = "true" ∨ v = "false") →
      parseCommandLine p [arg] = .ok ⟨[(resolveAlias p nm, [v])], [], []⟩) ∧
    (∀ (p : Parser) (arg nm v : String),
      isCommandSeparator arg = false → isOption arg = true →
      splitNameValue arg = (nm, v, true) →
      lookup p.options (resolveAlias p nm) = some ⟨true⟩ →
      ¬(v = "true" ∨ v = "false") →
      parseCommandLine p [arg] = .error (.usage none ("unexpected boolean value: " ++ goQuote v))) ∧
    parseCommandLine flagParser ["-f"] = .ok ⟨[("--flag", ["true"])], [], []⟩ ∧
    parseCommandLine flagParser ["--flag"] = .ok ⟨[("--flag", ["true"])], [], []⟩ ∧
    parseCommandLine flagParser ["-f=true"] = .ok ⟨[("--flag", ["true"])], [], []⟩ ∧
    parseCommandLine flagParser ["--flag=true"] = .ok ⟨[("--flag", ["true"])], [], []⟩ ∧
    parseCommandLine flagParser ["-f=false"] = .ok ⟨[("--flag", ["false"])], [], []⟩ ∧
    parseCommandLine flagParser ["--flag=false"] = .ok ⟨[("--flag", ["false"])], [], []⟩ ∧
    parseCommandLine flagParser ["-f=banana"] =
      .error (.usage none ("unexpected boolean value: " ++ goQuote "banana")) ∧
    decodeScalar decodeBoolG ["true"] = .ok (.bool true) ∧
    decodeScalar decodeBoolG ["false"] = .ok (.bool false) := by
  refine ⟨?_, ?_, ?_, rfl, rfl, rfl, rfl, rfl, rfl, rfl, rfl, rfl⟩
  · intro p arg nm v hsep hopt hsplit hres
    have hc : classifyToken p arg = .record (resolveAlias p nm) "true" := by
      unfold classifyToken
      rw [hsplit]
      simp [hsep, hopt, hres]
    show parseLoop p [arg] [] [] = _
    rw [parseLoop, hc]
    rfl
  · intro p arg nm v hsep hopt hsplit hres hval
    have hc : classifyToken p arg = .record (resolveAlias p nm) v := by
      unfold classifyToken
      rw [hsplit]
      simp [hsep, hopt, hres, hval]
    show parseLoop p [arg] [] [] = _
    rw [parseLoop, hc]
    rfl
  · intro p arg nm v hsep hopt hsplit hres hval
    have hc : classifyToken p arg =
        .fail (.usage none ("unexpected boolean value: " ++ goQuote v)) := by
      unfold classifyToken
      rw [hsplit]
      push_neg at hval
      simp [hsep, hopt, hres, hval.1, hval.2]
    show parseLoop p [arg] [] [] = _
    rw [parseLoop, hc]

/-- Witness for C8: the general clauses applied to the `--verbose` flag of a
parser that also aliases `-v` to it. -/
theorem C8_boolean_options_witness :
    parseCommandLine ⟨[("-v", "--verbose")], [("--verbose", ⟨true⟩)]⟩ ["-v"] =
      .ok ⟨[("--verbose", ["true"])], [], []⟩ ∧
    parseCommandLine ⟨[("-v", "--verbose")], [("--verbose", ⟨true⟩)]⟩ ["-v=false"] =
      .ok ⟨[("--verbose", ["false"])], [], []⟩ ∧
    parseCommandLine ⟨[("-v", "--verbose")], [("--verbose", ⟨true⟩)]⟩ ["-v=x"] =
      .error (.usage none ("unexpected boolean value: " ++ goQuote "x")) :=
  ⟨C8_boolean_options.1 _ "-v" "-v" "" rfl rfl rfl rfl,
   C8_boolean_options.2.1 _ "-v=false" "-v" "false" rfl rfl rfl rfl (Or.inr rfl),
   C8_boolean_options.2.2.1 _ "-v=x" "-v" "x" rfl rfl rfl rfl (by simp)⟩

/-- C9: at a leaf command whose earlier stages all pass, a variadic callable
with an empty trailing command list is answered with
`Usage("missing command after \"--\" separator")`, and a non-variadic
callable with a non-empty trailing command list with
`Usage("unsupported command after \"--\" separator")`; a variadic call with
vector `["--", "echo", "hi"]` hands the callable the trailing command
`["echo", "hi"]`, and a variadic call with the empty vector fails with the
missing-command-after-separator usage error. -/
theorem C9_variadic_checks :
    (∀ (cmd : CmdFunc) (args env : List String) (pa : ParsedArgs) (params : List GoValue),
      parseCommandLine cmd.parser args = .ok pa →
      wantHelp pa.options = false →
      findMissingRequired cmd.options
        (defaultMerge cmd.options (envMerge cmd.options cmd.ignoreEnvOptions pa.options env)) = none →
      structDecode cmd.options
        (defaultMerge cmd.options (envMerge cmd.options cmd.ignoreEnvOptions pa.options env)) = .ok () →
      bindPositionals cmd.values pa.values = .ok (params, []) →
      (cmd.variadic = true → pa.command = [] →
        cmd.call args env = (1, some (.usage (some (.cmdFunc cmd.id))
          ("missing command after \"--\" separator")))) ∧
      (cmd.variadic = false → pa.command ≠ [] →
        cmd.call args env = (1, some (.usage (some (.cmdFunc cmd.id))
          ("unsupported command after \"--\" separator"))))) ∧
    (∀ f, (CmdFunc.call { cmdVar with invoke := f } ["--", "echo", "hi"] []) =
      ((f [] ["echo", "hi"]).1, (f [] ["echo", "hi"]).2.map (annotateLeaf (.cmdFunc 3)))) ∧
    cmdVar.call [] [] = (1, some (.usage (some (.cmdFunc 3))
      ("missing command after \"--\" separator"))) := by
  refine ⟨?_, fun f => rfl, rfl⟩
  intro cmd args env pa params hparse hhelp hreq hdec hbind
  constructor
  · intro hvar hcmd
    unfold CmdFunc.call
    rw [hparse]
    simp only [hhelp, Bool.false_eq_true, if_false]
    rw [hreq, hdec, hbind]
    simp [hvar, hcmd]
  · intro hvar hcmd
    unfold CmdFunc.call
    rw [hparse]
    simp only [hhelp, Bool.false_eq_true, if_false]
    rw [hreq, hdec, hbind]
    simp [hvar, hcmd]

/-- Witness for C9: the two general clauses at concrete calls — a variadic
command called with just the separator, and a non-variadic positional
command with trailing tokens after the separator. -/
theorem C9_variadic_checks_witness :
    cmdVar.call ["--"] [] = (1, some (.usage (some (.cmdFunc 3))
      ("missing command after \"--\" separator"))) ∧
    cmdPos.call ["1", "2", "--", "x"] [] = (1, some (.usage (some (.cmdFunc 2))
      ("unsupported command after \"--\" separator"))) :=
  ⟨(C9_variadic_checks.1 cmdVar ["--"] [] ⟨[], [], []⟩ [] rfl rfl rfl rfl rfl).1 rfl rfl,
   (C9_variadic_checks.1 cmdPos ["1", "2", "--", "x"] [] ⟨[], ["1", "2"], ["x"]⟩
     [.int 1, .int 2] rfl rfl rfl rfl rfl).2 rfl (by simp)⟩

/-- C2 counterexample: the command with two `int` positional parameters
called with `["10"]` (fewer positionals than scalar parameters) does not
fail with a `*Usage` signal — the missing value is decoded from the empty
string and the raw `strconv` error is returned unwrapped. -/
theorem C2_counterexample :
    cmdPos.call ["10"] [] =
      (1, some (.plain "strconv.ParseInt: parsing \"\": invalid syntax")) ∧
    isUsageSignal (cmdPos.call ["10"] []).2 = false :=
  ⟨rfl, rfl⟩

/-- C2 (amended): positional values bind strictly in command-line order (the
example vector `["10", "42"]` reaches the callable as `x = 10`, `y = 42`,
and in general scalar decoders consume values pairwise in order); a
slice-typed final parameter absorbs all remaining positionals; unconsumed
leftover positionals yield a `*Usage` whose message begins
"too many positional arguments"; but fewer positional values than scalar
parameters makes each missing scalar decode the empty string — a failing
decode (an `int` parameter) surfaces as exit 1 with the bare decode error,
not a `*Usage`, and a string parameter silently binds `""`. -/
theorem C2_positional_binding :
    (∀ f, (CmdFunc.call { cmdPos with invoke := f } ["10", "42"] []) =
      ((f [.int 10, .int 42] []).1,
       (f [.int 10, .int 42] []).2.map (annotateLeaf (.cmdFunc 2)))) ∧
    (∀ (ds : List (String → Except String GoValue)) (vs : List String) (xs : List GoValue),
      List.Forall₂ (fun dv (x : GoValue) => dv.1 dv.2 = .ok x) (ds.zip vs) xs →
      ds.length = vs.length →
      bindPositionals (ds.map PosDecoder.scalar) vs = .ok (xs, [])) ∧
    (∀ (d : String → Except String GoValue) (vs : List String) (xs : List GoValue),
      decodeSliceVals d vs = .ok xs →
      bindPositionals [.sliceOf d] vs = .ok ([.list xs], [])) ∧
    (∀ (d₁ d : String → Except String GoValue) (v₁ : String) (x₁ : GoValue)
       (vs : List String) (xs : List GoValue),
      d₁ v₁ = .ok x₁ → decodeSliceVals d vs = .ok xs →
      bindPositionals [.scalar d₁, .sliceOf d] (v₁ :: vs) = .ok ([x₁, .list xs], [])) ∧
    (∀ (cmd : CmdFunc) (args env : List String) (pa : ParsedArgs)
       (params : List GoValue) (leftover : List String),
      parseCommandLine cmd.parser args = .ok pa →
      wantHelp pa.options = false →
      findMissingRequired cmd.options
        (defaultMerge cmd.options (envMerge cmd.options cmd.ignoreEnvOptions pa.options env)) = none →
      structDecode cmd.options
        (defaultMerge cmd.options (envMerge cmd.options cmd.ignoreEnvOptions pa.options env)) = .ok () →
      bindPositionals cmd.values pa.values = .ok (params, leftover) →
      leftover ≠ [] →
      cmd.call args env = (1, some (.usage (some (.cmdFunc cmd.id))
        ("too many positional arguments: " ++ goQuoteList leftover)))) ∧
    (∀ (d : String → Except String GoValue) (rest : List PosDecoder) (m : String),
      d "" = .error m →
      bindPositionals (.scalar d :: rest) [] = .error (.plain m)) ∧
    (∀ (cmd : CmdFunc) (args env : List String) (pa : ParsedArgs) (e : CliError),
      parseCommandLine cmd.parser args = .ok pa →
      wantHelp pa.options = false →
      findMissingRequired cmd.options
        (defaultMerge cmd.options (envMerge cmd.options cmd.ignoreEnvOptions pa.options env)) = none →
      structDecode cmd.options
        (defaultMerge cmd.options (envMerge cmd.options cmd.ignoreEnvOptions pa.options env)) = .ok () →
      bindPositionals cmd.values pa.values = .error e →
      cmd.call args env = (1, some e)) ∧
    bindPositionals [.scalar decodeStringG, .scalar decodeStringG] ["10"] =
      .ok ([.str "10", .str ""], []) := by
  refine ⟨fun f => rfl, ?_, ?_, ?_, ?_, ?_, ?_, rfl⟩
  · intro ds vs xs hall hlen
    induction ds generalizing vs xs with
    | nil =>
      cases vs with
      | nil => cases hall; rfl
      | cons v vs' => simp at hlen
    | cons d ds' ih =>
      cases vs with
      | nil => simp at hlen
      | cons v vs' =>
        simp only [List.zip_cons_cons] at hall
        cases xs with
        | nil => cases hall
        | cons x xs' =>
          have hd : d v = .ok x := by simpa using (List.forall₂_cons.mp hall).1
          have tl := (List.forall₂_cons.mp hall).2
          simp only [List.map_cons, bindPositionals, List.headD_cons, List.tail_cons]
          rw [hd, ih vs' xs' tl (by simpa using hlen)]
  · intro d vs xs hs
    simp only [bindPositionals]
    rw [hs]
  · intro d₁ d v₁ x₁ vs xs h₁ hs
    simp only [bindPositionals, List.headD_cons, List.tail_cons]
    rw [h₁]
    simp only [bindPositionals]
    rw [hs]
  · intro cmd args env pa params leftover hparse hhelp hreq hdec hbind hne
    unfold CmdFunc.call
    rw [hparse]
    simp only [hhelp, Bool.false_eq_true, if_false]
    rw [hreq, hdec, hbind]
    simp [hne]
  · intro d rest m hd
    simp only [bindPositionals, List.headD_nil, List.tail_nil]
    rw [hd]
  · intro cmd args env pa e hparse hhelp hreq hdec hbind
    unfold CmdFunc.call
    rw [hparse]
    simp only [hhelp, Bool.false_eq_true, if_false]
    rw [hreq, hdec, hbind]

/-- Witness for C2 (amended): the general clauses instantiated — two ints
bound in order, a string slice absorbing the rest after one scalar, a
too-many failure, and the raw error surfacing for a missing `int`. -/
theorem C2_positional_binding_witness :
    bindPositionals [PosDecoder.scalar decodeIntG, PosDecoder.scalar decodeIntG] ["10", "42"] =
      .ok ([.int 10, .int 42], []) ∧
    bindPositionals [PosDecoder.scalar decodeStringG, PosDecoder.sliceOf decodeStringG]
      ["a", "b", "c"] = .ok ([.str "a", .list [.str "b", .str "c"]], []) ∧
    cmdPos.call ["10", "42", "99"] [] = (1, some (.usage (some (.cmdFunc 2))
      ("too many positional arguments: " ++ goQuoteList ["99"]))) ∧
    cmdPos.call ["10"] [] = (1, some (.plain "strconv.ParseInt: parsing \"\": invalid syntax")) :=
  ⟨C2_positional_binding.2.1 [decodeIntG, decodeIntG] ["10", "42"] [.int 10, .int 42]
     (by refine List.Forall₂.cons rfl (List.Forall₂.cons rfl List.Forall₂.nil)) rfl,
   C2_positional_binding.2.2.2.1 decodeStringG decodeStringG "a" (.str "a") ["b", "c"]
     [.str "b", .str "c"] rfl rfl,
   C2_positional_binding.2.2.2.2.1 cmdPos ["10", "42", "99"] [] ⟨[], ["10", "42", "99"], []⟩
     [.int 10, .int 42] ["99"] rfl rfl rfl rfl rfl (by simp),
   C2_positional_binding.2.2.2.2.2.2.1 cmdPos ["10"] [] ⟨[], ["10"], []⟩
     (.plain "strconv.ParseInt: parsing \"\": invalid syntax") rfl rfl rfl rfl rfl⟩

/-- C3: after command-line parsing (help not requested), environment merge
and default merge, if some schema field has the empty default, is neither
boolean nor slice, and still has no value under its canonical name, then
`CommandFunc.Call` returns exit code 1 with a `*Usage` naming the canonical
flag of one such violating field — so whenever at least one violation
exists, at least one is surfaced. -/
theorem C3_required_flags (cmd : CmdFunc) (args env : List String) (pa : ParsedArgs)
    (hparse : parseCommandLine cmd.parser args = .ok pa)
    (hhelp : wantHelp pa.options = false)
    (hviol : ∃ nf ∈ cmd.options,
      isMissingRequired
        (defaultMerge cmd.options (envMerge cmd.options cmd.ignoreEnvOptions pa.options env))
        nf = true) :
    ∃ nf ∈ cmd.options,
      isMissingRequired
        (defaultMerge cmd.options (envMerge cmd.options cmd.ignoreEnvOptions pa.options env))
        nf = true ∧
      cmd.call args env = (1, some (.usage (some (.cmdFunc cmd.id))
        ("missing required flag: " ++ goQuote nf.1))) := by
  set opts₂ := defaultMerge cmd.options (envMerge cmd.options cmd.ignoreEnvOptions pa.options env)
    with hopts
  have hsome : (cmd.options.find? (isMissingRequired opts₂)).isSome := by
    rcases hviol with ⟨nf, hmem, hpred⟩
    exact List.find?_isSome.mpr ⟨nf, hmem, hpred⟩
  rcases Option.isSome_iff_exists.mp hsome with ⟨nf, hfind⟩
  refine ⟨nf, List.mem_of_find?_eq_some hfind, List.find?_some hfind, ?_⟩
  unfold CmdFunc.call
  rw [hparse]
  simp only [hhelp, Bool.false_eq_true, if_false]
  have hmr : findMissingRequired cmd.options opts₂ = some nf.1 := by
    unfold findMissingRequired
    rw [hfind]
    rfl
  rw [← hopts, hmr]

/-- Witness for C3: the command with the required flag `--name` called with
no arguments and an empty environment surfaces the missing-required-flag
usage error. -/
theorem C3_required_flags_witness :
    ∃ nf ∈ cmdReq.options,
      isMissingRequired
        (defaultMerge cmdReq.options (envMerge cmdReq.options cmdReq.ignoreEnvOptions [] []))
        nf = true ∧
      cmdReq.call [] [] = (1, some (.usage (some (.cmdFunc 1))
        ("missing required flag: " ++ goQuote nf.1))) :=
  C3_required_flags cmdReq [] [] ⟨[], [], []⟩ rfl rfl
    ⟨("--name", nameField), by simp [cmdReq], rfl⟩

/-- C6: for every schema field (canonical names unique), the value after the
environment merge is the command-line value when one was given; otherwise,
when the field is not excluded for this call, it is the first match among
the field's candidate environment names scanned in declared order; an
excluded field keeps its command-line state. The default merge touches only
fields still unset, so a present value — in particular one installed by the
environment merge — is never overridden by a default. -/
theorem C6_env_default_merge :
    (∀ (fields : List (String × FieldInfo)) (ig env : List String)
       (opts : List (String × List String)) (name : String) (f : FieldInfo),
      (fields.map Prod.fst).Nodup → (name, f) ∈ fields →
      lookup (envMerge fields ig opts env) name =
        if ig.contains name then lookup opts name
        else
          match lookup opts name with
          | some vs => some vs
          | none => (firstEnvMatch f.envvars env).map (fun v => [v])) ∧
    (∀ (fields : List (String × FieldInfo)) (opts : List (String × List String))
       (name : String) (f : FieldInfo),
      (fields.map Prod.fst).Nodup → (name, f) ∈ fields →
      lookup (defaultMerge fields opts) name =
        match lookup opts name with
        | some vs => some vs
        | none => if f.defval ≠ "" ∧ f.defval ≠ "-" then some [f.defval] else none) ∧
    (∀ (fields : List (String × FieldInfo)) (opts : List (String × List String))
       (name : String) (vs : List String),
      lookup opts name = some vs → lookup (defaultMerge fields opts) name = some vs) :=
  ⟨lookup_envMerge_mem, lookup_defaultMerge_mem, lookup_defaultMerge_of_set⟩

/-- Witness for C6: on the `--name` field (candidate env name `NAME`,
empty default), the environment value is taken when the command line left
the field unset, the command-line value wins otherwise, and a default
(field `--city` with default `"Paris"`) does not override the environment
value installed for it. -/
theorem C6_env_default_merge_witness :
    lookup (envMerge cmdReq.options [] [] ["NAME=Han"]) "--name" = some ["Han"] ∧
    lookup (envMerge cmdReq.options [] [("--name", ["Luke"])] ["NAME=Han"]) "--name" =
      some ["Luke"] ∧
    lookup (envMerge cmdReq.options ["--name"] [] ["NAME=Han"]) "--name" = none ∧
    lookup
      (defaultMerge [("--city", ⟨["CITY"], "Paris", false, false, decodeScalar decodeStringG⟩)]
        [("--city", ["Tokyo"])]) "--city" = some ["Tokyo"] :=
  ⟨by
    have h := C6_env_default_merge.1 cmdReq.options [] ["NAME=Han"] [] "--name" nameField
      (by simp [cmdReq, helpField, nameField]) (by simp [cmdReq])
    simpa using h,
   by
    have h := C6_env_default_merge.1 cmdReq.options [] ["NAME=Han"] [("--name", ["Luke"])]
      "--name" nameField (by simp [cmdReq, helpField, nameField]) (by simp [cmdReq])
    simpa using h,
   by
    have h := C6_env_default_merge.1 cmdReq.options ["--name"] ["NAME=Han"] [] "--name" nameField
      (by simp [cmdReq, helpField, nameField]) (by simp [cmdReq])
    simpa using h,
   C6_env_default_merge.2.2 _ _ "--city" ["Tokyo"] rfl⟩

/-- A leaf command whose callable returns a `*Usage` already annotated with
a different node (id 99). -/
def cmdAnn : CmdFunc :=
  ⟨5, makeParser, [("--help", helpField)], [], false, [],
   fun _ _ => (1, some (.usage (some (.cmdFunc 99)) "boom"))⟩

/-- C5 counterexample: a `*Usage` returned by the invoked callable already
annotated with node 99 surfaces from `CommandFunc.Call` re-annotated with
the current command (node 5) — the leaf overwrites an existing annotation
instead of setting it only when unset. -/
theorem C5_counterexample :
    cmdAnn.call [] [] = (1, some (.usage (some (.cmdFunc 5)) "boom")) ∧
    (some (Node.cmdFunc 99) : Option Node) ≠ some (Node.cmdFunc 5) :=
  ⟨rfl, by decide⟩

/-- C5 (amended): a Help/Usage signal surfacing from the invocation is
annotated by the leaf with itself unconditionally, overwriting any
annotation the invoked callable had set; an enclosing named router sets
itself when the annotation is still unset and otherwise wraps the existing
annotation in a name-carrying decorator, preserving it as the inner node
rather than leaving it untouched. -/
theorem C5_annotate :
    (∀ (n : Node) (c : Option Node), annotateLeaf n (.help c) = .help (some n)) ∧
    (∀ (n : Node) (c : Option Node) (m : String),
      annotateLeaf n (.usage c m) = .usage (some n) m) ∧
    (∀ (name : String) (inner : Node) (m : String),
      annotateNamed name inner (.usage none m) = .usage (some (.named name inner)) m) ∧
    (∀ (name : String) (inner c : Node) (m : String),
      annotateNamed name inner (.usage (some c) m) = .usage (some (.named name c)) m) ∧
    (∀ (name : String) (inner : Node),
      annotateNamed name inner (.help none) = .help (some (.named name inner))) ∧
    (∀ (name : String) (inner c : Node),
      annotateNamed name inner (.help (some c)) = .help (some (.named name c))) ∧
    (∀ (name : String) (c : Child) (args env : List String),
      namedCall name c args env =
        ((c.call args env).1, (c.call args env).2.map (annotateNamed name c.node))) ∧
    (∀ (cmd : CmdFunc) (args env : List String) (pa : ParsedArgs) (params : List GoValue),
      parseCommandLine cmd.parser args = .ok pa →
      wantHelp pa.options = false →
      findMissingRequired cmd.options
        (defaultMerge cmd.options (envMerge cmd.options cmd.ignoreEnvOptions pa.options env)) = none →
      structDecode cmd.options
        (defaultMerge cmd.options (envMerge cmd.options cmd.ignoreEnvOptions pa.options env)) = .ok () →
      bindPositionals cmd.values pa.values = .ok (params, []) →
      ¬(cmd.variadic = true ∧ pa.command = []) →
      ¬(cmd.variadic = false ∧ pa.command ≠ []) →
      cmd.call args env =
        ((cmd.invoke params pa.command).1,
         (cmd.invoke params pa.command).2.map (annotateLeaf (.cmdFunc cmd.id)))) := by
  refine ⟨fun n c => rfl, fun n c m => rfl, fun name inner m => rfl, fun name inner c m => rfl,
    fun name inner => rfl, fun name inner c => rfl, fun name c args env => rfl, ?_⟩
  intro cmd args env pa params hparse hhelp hreq hdec hbind hv1 hv2
  unfold CmdFunc.call
  rw [hparse]
  simp only [hhelp, Bool.false_eq_true, if_false]
  rw [hreq, hdec, hbind]
  simp [hv1, hv2]

/-- Witness for C5 (amended): the router wrapping an already-annotated
usage signal, and the leaf-level post-invocation annotation at `cmdAnn`. -/
theorem C5_annotate_witness :
    annotateNamed "sub" (.cmdFunc 7) (.usage (some (.cmdFunc 99)) "boom") =
      .usage (some (.named "sub" (.cmdFunc 99))) "boom" ∧
    cmdAnn.call [] [] = (1, some (.usage (some (.cmdFunc 5)) "boom")) :=
  ⟨C5_annotate.2.2.2.1 "sub" (.cmdFunc 7) (.cmdFunc 99) "boom",
   C5_annotate.2.2.2.2.2.2.2 cmdAnn [] [] ⟨[], [], []⟩ [] rfl rfl rfl rfl rfl
     (by simp [cmdAnn]) (by simp [cmdAnn])⟩

/-- A trivial child command used by the router examples. -/
def childTool : Child :=
  ⟨.cmdFunc 40, fun _ _ => (0, none)⟩

/-- A command set registering the single name `tool`. -/
def setTool : CmdSet :=
  ⟨4, [("tool", childTool)]⟩

theorem scanName_skip (pre : List String) (t : String) (post : List String)
    (hpre : ∀ x ∈ pre, isOption x = true ∧ isCommandSeparator x = false)
    (hopt : isOption t = false) (hsep : isCommandSeparator t = false) :
    scanName (pre ++ t :: post) = (t, pre ++ post) := by
  induction pre with
  | nil => simp [scanName, hopt, hsep]
  | cons a tl ih =>
    have ha := hpre a (List.mem_cons_self a tl)
    have htl := ih (fun x hx => hpre x (List.mem_cons_of_mem a hx))
    simp [scanName, ha.1, ha.2, htl]

theorem scanName_sep (pre post : List String)
    (hpre : ∀ x ∈ pre, isOption x = true ∧ isCommandSeparator x = false) :
    scanName (pre ++ "--" :: post) = ("", pre ++ "--" :: post) := by
  induction pre with
  | nil => simp [scanName, isCommandSeparator]
  | cons a tl ih =>
    have ha := hpre a (List.mem_cons_self a tl)
    have htl := ih (fun x hx => hpre x (List.mem_cons_of_mem a hx))
    simp [scanName, ha.1, ha.2, htl]

/-- C7: the router takes as command name the first token that is neither
option-looking nor the `--` separator, removing it in place while options
before it are preserved — so `["sub", "-f=x"]` and `["-f=x", "sub"]`
dispatch to the child `sub` with the identical remaining vector
`["-f=x"]`; and a `--` separator reached before any name (with the leading
token not the set-level help option) yields the "missing command" usage
error regardless of what follows the separator. -/
theorem C7_name_scan :
    (∀ (pre : List String) (t : String) (post : List String),
      (∀ x ∈ pre, isOption x = true ∧ isCommandSeparator x = false) →
      isOption t = false → isCommandSeparator t = false →
      scanName (pre ++ t :: post) = (t, pre ++ post)) ∧
    (∀ (s : CmdSet) (c : Child) (env : List String),
      lookup s.cmds "sub" = some c →
      s.call ["sub", "-f=x"] env = namedCall "sub" c ["-f=x"] env ∧
      s.call ["-f=x", "sub"] env = namedCall "sub" c ["-f=x"] env) ∧
    (∀ (s : CmdSet) (env pre post : List String),
      (∀ x ∈ pre, isOption x = true ∧ isCommandSeparator x = false) →
      parseHelp (pre ++ "--" :: post) = (false, pre ++ "--" :: post) →
      s.call (pre ++ "--" :: post) env =
        (1, some (.usage (some (.cmdSet s.id)) "missing command"))) := by
  refine ⟨scanName_skip, ?_, ?_⟩
  · intro s c env hsub
    constructor
    · show s.dispatch ["sub", "-f=x"] env = _
      unfold CmdSet.dispatch
      have hscan : scanName ["sub", "-f=x"] = ("sub", ["-f=x"]) := rfl
      rw [hscan]
      simp [hsub]
    · show s.dispatch ["-f=x", "sub"] env = _
      unfold CmdSet.dispatch
      have hscan : scanName ["-f=x", "sub"] = ("sub", ["-f=x"]) := rfl
      rw [hscan]
      simp [hsub]
  · intro s env pre post hpre hhelp
    have h1 : s.call (pre ++ "--" :: post) env = s.dispatch (pre ++ "--" :: post) env := by
      unfold CmdSet.call
      rw [hhelp]
      rfl
    rw [h1]
    unfold CmdSet.dispatch
    rw [scanName_sep pre post hpre]
    rfl

/-- Witness for C7: the scan applied behind one skipped option; a concrete
set containing `sub` dispatching identically for both orders; and a
separator before any name (with a registered name after the separator left
unscanned). -/
theorem C7_name_scan_witness :
    scanName ["-v", "sub", "x"] = ("sub", ["-v", "x"]) ∧
    (CmdSet.call ⟨7, [("sub", childTool)]⟩ ["sub", "-f=x"] [] =
      namedCall "sub" childTool ["-f=x"] [] ∧
     CmdSet.call ⟨7, [("sub", childTool)]⟩ ["-f=x", "sub"] [] =
      namedCall "sub" childTool ["-f=x"] []) ∧
    setTool.call ["-f=x", "--", "tool"] [] =
      (1, some (.usage (some (.cmdSet 4)) "missing command")) :=
  ⟨C7_name_scan.1 ["-v"] "sub" ["x"] (by decide) rfl rfl,
   C7_name_scan.2.1 ⟨7, [("sub", childTool)]⟩ childTool [] rfl,
   C7_name_scan.2.2 setTool [] ["-f=x"] ["tool"] (by decide) rfl⟩

/-- C4: for an unmatched command name (help not intercepted, a name found,
no registered child under it), the router folds the edit distance over every
registered key keeping the closest, and returns the suggestion-bearing bare
error (not a `*Usage`) exactly when `similarEnough` accepts; `similarEnough`
holds iff both names are longer than 1, the distance is at most 1 whenever
either name's length is at most 3, and otherwise the distance over the
closest key's length is at most 0.3 (as the exact rational comparison);
the model reproduces the repository's `similarEnough` test table, and in
particular `"too"` against the registered set `{"tool"}` draws the bare
suggestion error while `"zz"` draws the plain unknown-command usage error. -/
theorem C4_unknown_command :
    (∀ (s : CmdSet) (env args : List String) (a : String) (rest : List String),
      parseHelp args = (false, args) →
      scanName args = (a, rest) → a ≠ "" →
      lookup s.cmds a = none →
      s.call args env =
        (if similarEnough a (closestCmd a (s.cmds.map Prod.fst)).1
            (closestCmd a (s.cmds.map Prod.fst)).2 then
          (1, some (.plain ("unknown command: " ++ goQuote a ++ ". Did you mean "
            ++ goQuote (closestCmd a (s.cmds.map Prod.fst)).1
            ++ "? Use --help to see all commands")))
        else
          (1, some (.usage (some (.cmdSet s.id)) ("unknown command: " ++ goQuote a))))) ∧
    (∀ (input want : String) (lvn : Nat),
      similarEnough input want lvn = true ↔
        (2 ≤ input.length ∧ 2 ≤ want.length ∧
          ((input.length ≤ 3 ∨ want.length ≤ 3) → lvn ≤ 1) ∧
          (3 < input.length → 3 < want.length → 10 * lvn ≤ 3 * want.length))) ∧
    ([("a", "d"), ("ab", "cd"), ("abc", "bbc"), ("abcd", "bbcd"), ("abcd", "bbcc"),
      ("abcde", "bbcdd"), ("abcdef", "bbcddf"), ("abcdef", "abcddf"),
      ("bbcdfg", "abcdefg")].map
        (fun q => similarEnough q.1 q.2 (levenshteinDist q.1 q.2)) =
      [false, false, true, true, false, false, false, true, true]) ∧
    levenshteinDist "too" "tool" = 1 ∧
    setTool.call ["too"] [] = (1, some (.plain
      ("unknown command: " ++ goQuote "too" ++ ". Did you mean " ++ goQuote "tool"
        ++ "? Use --help to see all commands"))) ∧
    setTool.call ["zz"] [] =
      (1, some (.usage (some (.cmdSet 4)) ("unknown command: " ++ goQuote "zz"))) := by
  refine ⟨?_, ?_, rfl, rfl, rfl, rfl⟩
  · intro s env args a rest hhelp hscan ha hlook
    have h1 : s.call args env = s.dispatch args env := by
      unfold CmdSet.call
      rw [hhelp]
      rfl
    rw [h1]
    unfold CmdSet.dispatch
    rw [hscan]
    simp only [ha, if_false]
    rw [hlook]
  · intro input want lvn
    unfold similarEnough
    by_cases h1 : input.length ≤ 1 ∨ want.length ≤ 1
    · rw [if_pos h1]
      constructor
      · intro h; simp at h
      · intro h; exfalso; omega
    · rw [if_neg h1]
      push_neg at h1
      by_cases h2 : input.length ≤ 3 ∨ want.length ≤ 3
      · rw [if_pos h2]
        simp only [decide_eq_true_eq]
        constructor
        · intro h
          exact ⟨by omega, by omega, fun _ => h, fun hi hw => by omega⟩
        · intro h; exact h.2.2.1 h2
      · rw [if_neg h2]
        push_neg at h2
        simp only [decide_eq_true_eq]
        constructor
        · intro h
          exact ⟨by omega, by omega, fun hc => by omega, fun _ _ => h⟩
        · intro h; exact h.2.2.2 (by omega) (by omega)

/-- Witness for C4: the general routing clause at the name `"git"` against
`{"tool"}` (distance 3, not similar enough), and the `similarEnough`
characterization at the allowed 2-of-7 boundary. -/
theorem C4_unknown_command_witness :
    setTool.call ["git"] [] =
      (1, some (.usage (some (.cmdSet 4)) ("unknown command: " ++ goQuote "git"))) ∧
    similarEnough "bbcdefg" "abcdefg" 2 = true :=
  ⟨C4_unknown_command.1 setTool [] ["git"] "git" [] rfl rfl (by decide) rfl,
   (C4_unknown_command.2.1 "bbcdefg" "abcdefg" 2).mpr (by decide)⟩

theorem annotateNamed_ne_set_help (name : String) (inner : Node) (e : CliError) (j : Nat) :
    annotateNamed name inner e ≠ .help (some (.cmdSet j)) := by
  cases e with
  | help c => cases c <;> simp [annotateNamed]
  | usage c m => cases c <;> simp [annotateNamed]
  | plain m => simp [annotateNamed]

theorem dispatch_no_set_help (s : CmdSet) (args env : List String) (j : Nat) :
    (s.dispatch args env).2 ≠ some (.help (some (.cmdSet j))) := by
  unfold CmdSet.dispatch
  by_cases ha : (scanName args).1 = ""
  · simp [ha]
  · simp only [ha, if_false]
    cases hlook : lookup s.cmds (scanName args).1 with
    | none =>
      by_cases hsim : similarEnough (scanName args).1
          (closestCmd (scanName args).1 (s.cmds.map Prod.fst)).1
          (closestCmd (scanName args).1 (s.cmds.map Prod.fst)).2
      · simp [hlook, hsim]
      · simp [hlook, hsim]
    | some c =>
      simp only [hlook]
      unfold namedCall
      cases hr : (c.call (scanName args).2 env).2 with
      | none => simp [hr]
      | some e =>
        simp only [hr, Option.map_some]
        intro hcontra
        exact annotateNamed_ne_set_help _ _ _ _ (Option.some.inj hcontra)

/-- C10: only the first token of a command set's vector is inspected for the
set-level help option — if it is `-h` or `--help` with an attached value
different from `"true"` (such as `-h=banana`), no help is returned, the
token is removed, and routing proceeds on the remainder with no usage error
for the malformed boolean value; and when the first token does not carry the
help name, the call never produces the set's own help signal, wherever an
`-h`/`--help` appears later in the vector. -/
theorem C10_set_help_first_token (s : CmdSet) (env : List String) (a : String)
    (rest : List String) :
    (∀ (n v : String), splitNameValue a = (n, v, true) →
      (n = "-h" ∨ n = "--help") → v ≠ "true" →
      s.call (a :: rest) env = s.dispatch rest env) ∧
    (¬((splitNameValue a).1 = "-h" ∨ (splitNameValue a).1 = "--help") →
      (s.call (a :: rest) env).2 ≠ some (.help (some (.cmdSet s.id)))) := by
  constructor
  · intro n v hsplit hname hv
    unfold CmdSet.call
    have hph : parseHelp (a :: rest) = (false, rest) := by
      unfold parseHelp
      dsimp only
      rw [hsplit]
      simp [hname, hv]
    rw [hph]
    rfl
  · intro hname
    push_neg at hname
    have hph : parseHelp (a :: rest) = (false, a :: rest) := by
      unfold parseHelp
      dsimp only
      simp [hname.1, hname.2]
    unfold CmdSet.call
    rw [hph]
    exact dispatch_no_set_help s (a :: rest) env s.id

/-- Witness for C10: `-h=banana` ahead of a registered name is silently
dropped (the call routes to `tool` and succeeds), and a later `-h` does not
produce the set's help. -/
theorem C10_set_help_first_token_witness :
    setTool.call ["-h=banana", "tool"] [] = setTool.dispatch ["tool"] [] ∧
    (setTool.call ["tool", "-h"] []).2 ≠ some (.help (some (.cmdSet 4))) :=
  ⟨(C10_set_help_first_token setTool [] "-h=banana" ["tool"]).1 "-h" "banana" rfl
     (Or.inl rfl) (by decide),
   (C10_set_help_first_token setTool [] "tool" ["-h"]).2 (by decide)⟩
